import Mathlib

/-!
Verification development for the Planned-Investment-Governance API server
(src/api_server.py).  The local SQLite cache is modelled as explicit state
(lists of rows); each HTTP operation is translated into a pure function over
that state.  An `Except.error` result models the source function returning an
error response before performing any cache write and before scheduling any
background Snowflake sync.  Remote collaborators (the Snowflake warehouse, the
Workday hierarchy view) are modelled as function-valued parameters.
-/

/-- A cached row of `cached_investment_requests` (all 52 columns of the table
created in `init_cache_db`).  `REAL` monetary amounts are modelled as integers
since the code only stores and copies them; ISO-8601 timestamps are strings as
in the SQLite schema. -/
structure Request where
  request_id : Int
  request_title : Option String
  account_id : Option String
  account_name : Option String
  investment_type : Option String
  requested_amount : Option Int
  investment_quarter : Option String
  business_justification : Option String
  expected_outcome : Option String
  risk_assessment : Option String
  created_by : Option String
  created_by_name : Option String
  created_by_employee_id : Option Int
  created_at : Option String
  theater : Option String
  industry_segment : Option String
  status : String
  current_approval_level : Int
  next_approver_id : Option Int
  next_approver_name : Option String
  next_approver_title : Option String
  dm_approved_by : Option String
  dm_approved_by_title : Option String
  dm_approved_at : Option String
  dm_comments : Option String
  rd_approved_by : Option String
  rd_approved_by_title : Option String
  rd_approved_at : Option String
  rd_comments : Option String
  avp_approved_by : Option String
  avp_approved_by_title : Option String
  avp_approved_at : Option String
  avp_comments : Option String
  gvp_approved_by : Option String
  gvp_approved_by_title : Option String
  gvp_approved_at : Option String
  gvp_comments : Option String
  updated_at : Option String
  withdrawn_by : Option String
  withdrawn_by_name : Option String
  withdrawn_at : Option String
  withdrawn_comment : Option String
  submitted_comment : Option String
  submitted_by_name : Option String
  submitted_at : Option String
  draft_comment : Option String
  draft_by_name : Option String
  draft_at : Option String
  on_behalf_of_employee_id : Option Int
  on_behalf_of_name : Option String
  sfdc_opportunity_link : Option String
  expected_roi : Option String
deriving Repr, DecidableEq

/-- A cached row of `cached_approval_steps`.  `is_final_step` (stored 0/1) is
modelled as `Bool`; `step_order` is the 1-based ordinal. -/
structure ApprovalStep where
  step_id : Int
  request_id : Int
  step_order : Nat
  approver_employee_id : Option Int
  approver_name : Option String
  approver_title : Option String
  status : String
  approved_at : Option String
  comments : Option String
  is_final_step : Bool
  created_at : Option String
deriving Repr, DecidableEq

/-- One dict of the list built by `resolve_approval_chain`.  The employee id
comes from the directory key and is therefore never null in this relational
model. -/
structure ChainEntry where
  employee_id : Int
  name : String
  title : Option String
  level : Nat
  is_final : Bool
deriving Repr, DecidableEq

/-- The mutable cache tables relevant to the approval workflow. -/
structure CacheState where
  requests : List Request
  steps : List ApprovalStep
deriving Repr, DecidableEq

/-- An error response `(jsonify error_message, http_code)` returned to the
caller before any cache mutation. -/
structure ApiError where
  code : Nat
  message : String
deriving Repr, DecidableEq

/-- A row of `cached_current_user` / the in-process `impersonated_user` dict,
restricted to the fields the modelled operations read. -/
structure UserInfo where
  username : String
  display_name : Option String
  employee_id : Option Int
  title : Option String
  manager_name : Option String
  manager_id : Option Int
  role : Option String
  theater : Option String
deriving Repr, DecidableEq

/-- The process-wide identity state: the impersonation override
(`impersonated_user` global) and the cached authenticated profile
(`cached_current_user` table). -/
structure IdentityState where
  impersonated : Option UserInfo
  cached_user : Option UserInfo
deriving Repr, DecidableEq

/-- A row of the Workday hierarchy view `SFDC_WORKDAY_USER_VW`, keyed by
employee id via the directory lookup function. -/
structure Employee where
  name : String
  title : Option String
  manager_id : Option Int
  active : Bool
deriving Repr, DecidableEq

def ADMIN_USERNAME : String := "TLEGRAND"

/-- `get_effective_user`: the impersonation override if set, else the cached
authenticated profile. -/
def get_effective_user (ids : IdentityState) : Option UserInfo :=
  match ids.impersonated with
  | some u => some u
  | none => ids.cached_user

/-- `get_real_username`: reads only `cached_current_user`, never the
impersonation override. -/
def get_real_username (ids : IdentityState) : Option String :=
  ids.cached_user.map (fun u => u.username)

/-- `is_admin`: compares the real (cached authenticated) username to the
administrator constant. -/
def is_admin (ids : IdentityState) : Bool :=
  get_real_username ids == some ADMIN_USERNAME

/-- `SELECT * FROM cached_investment_requests WHERE request_id = ?`. -/
def getRequest (st : CacheState) (request_id : Int) : Option Request :=
  st.requests.find? (fun r => r.request_id == request_id)

/-- `update_cache_request`: the column dict of each call site is modelled as a
record-update function applied to the matching row. -/
def update_cache_request (st : CacheState) (request_id : Int)
    (f : Request → Request) : CacheState :=
  { st with requests := st.requests.map (fun r =>
      if r.request_id == request_id then f r else r) }

/-- `has_approval_steps`: `COUNT(*) > 0` over the step rows of the request. -/
def has_approval_steps (st : CacheState) (request_id : Int) : Bool :=
  decide (0 < (st.steps.filter (fun s => s.request_id == request_id)).length)

/-- Insertion of a step into a list sorted by ascending `step_order`. -/
def insertByOrder (s : ApprovalStep) : List ApprovalStep → List ApprovalStep
  | [] => [s]
  | t :: ts =>
    if s.step_order ≤ t.step_order then s :: t :: ts else t :: insertByOrder s ts

/-- `ORDER BY step_order` of a row list (SQLite leaves ties unordered; this
model picks a deterministic insertion sort). -/
def sortByStepOrder : List ApprovalStep → List ApprovalStep
  | [] => []
  | s :: rest => insertByOrder s (sortByStepOrder rest)

/-- `get_cached_approval_steps`: the step rows of a request ordered by
`step_order`. -/
def get_cached_approval_steps (st : CacheState) (request_id : Int) :
    List ApprovalStep :=
  sortByStepOrder (st.steps.filter (fun s => s.request_id == request_id))

/-- The `for i, step in enumerate(chain)` insertion loop of
`insert_approval_steps_cache`, starting at index `i`. -/
def buildSteps (request_id : Int) (now : String) :
    Nat → List ChainEntry → List ApprovalStep
  | _, [] => []
  | i, entry :: rest =>
    { step_id := -(request_id * 100 + (i : Int) + 1),
      request_id := request_id,
      step_order := i + 1,
      approver_employee_id := some entry.employee_id,
      approver_name := some entry.name,
      approver_title := entry.title,
      status := "PENDING",
      approved_at := none,
      comments := none,
      is_final_step := entry.is_final,
      created_at := some now } :: buildSteps request_id now (i + 1) rest

/-- `insert_approval_steps_cache`: deletes the request's existing step rows and
inserts one `'PENDING'` row per chain entry with `step_order = i + 1`. -/
def insert_approval_steps_cache (request_id : Int) (chain : List ChainEntry)
    (steps : List ApprovalStep) (now : String) : List ApprovalStep :=
  steps.filter (fun s => s.request_id != request_id) ++
    buildSteps request_id now 0 chain

/-- Python `a or b` on optional integers: `0` and `None` are falsy. -/
def pyOrInt (a b : Option Int) : Option Int :=
  match a with
  | some v => if v == 0 then b else some v
  | none => b

/-- Python truthiness of an optional integer. -/
def truthyOptInt : Option Int → Bool
  | some v => v != 0
  | none => false

/-- Python truthiness of an optional string. -/
def truthyOptStr : Option String → Bool
  | some s => s != ""
  | none => false

/-- Rows of the recursive CTE of `resolve_approval_chain` above the anchor:
`(LEVEL, EMPLOYEE_ID, row)` for active managers, recursing while
`c.LEVEL < 10` (so at most 9 rows with levels 2..10).  `fuel` is the number
of recursion steps still allowed. -/
def walkUp (dir : Int → Option Employee) :
    Nat → Option Int → Nat → List (Nat × Int × Employee)
  | _, none, _ => []
  | 0, some _, _ => []
  | Nat.succ fuel, some manager_id, level =>
    match dir manager_id with
    | none => []
    | some m =>
      if m.active then (level, manager_id, m) :: walkUp dir fuel m.manager_id (level + 1)
      else []

/-- The CTE result `SELECT ... FROM chain WHERE LEVEL > 1 ORDER BY LEVEL`:
the anchor must be an active employee, then the manager walk. -/
def chainRows (dir : Int → Option Employee) (employee_id : Int) :
    List (Nat × Int × Employee) :=
  match dir employee_id with
  | none => []
  | some e => if e.active then walkUp dir 9 e.manager_id 2 else []

/-- The dict appended for one CTE row inside the fetch loop of
`resolve_approval_chain`. -/
def rowEntry (final_approver_eid : Int) (r : Nat × Int × Employee) : ChainEntry :=
  { employee_id := r.2.1,
    name := r.2.2.name,
    title := r.2.2.title,
    level := r.1,
    is_final := r.2.1 == final_approver_eid }

/-- The fetch loop of `resolve_approval_chain` appends each row and breaks
immediately after appending the final approver. -/
def takeThrough (p : α → Bool) : List α → List α
  | [] => []
  | x :: xs => if p x then [x] else x :: takeThrough p xs

/-- The tail of `resolve_approval_chain` after the fetch loop: when the walk
did not end at the final approver (or produced nothing), look the approver up
in the directory and, if an active record exists, append it as the last entry
levelled one past the walk's last level (2 when the walk was empty). -/
def finishChain (dir : Int → Option Employee) (fa : Int)
    (raw_chain : List ChainEntry) : List ChainEntry :=
  let needAppend :=
    match raw_chain.getLast? with
    | none => true
    | some e => e.employee_id != fa
  if needAppend then
    match dir fa with
    | some f =>
      if f.active then
        let lvl :=
          match raw_chain.getLast? with
          | none => 2
          | some e => e.level + 1
        raw_chain ++ [{ employee_id := fa, name := f.name, title := f.title,
                        level := lvl, is_final := true }]
      else raw_chain
    | none => raw_chain
  else raw_chain

/-- `resolve_approval_chain(employee_id, theater)`.  `finalApprovers` models
the `FINAL_APPROVERS` table keyed by theater; `dir` models the Workday view
keyed by employee id. -/
def resolve_approval_chain (finalApprovers : String → Option Int)
    (dir : Int → Option Employee) (employee_id : Int) (theater : String) :
    List ChainEntry :=
  match finalApprovers theater with
  | none => []
  | some fa =>
    finishChain dir fa
      ((takeThrough (fun r => r.2.1 == fa) (chainRows dir employee_id)).map
        (rowEntry fa))

/-- Remote timestamp map: data source name to optional ISO-8601 string
(`None` when `LAST_MODIFIED` is NULL). -/
abbrev TsMap := List (String × Option String)

/-- Python `dict.get(source)`: `None` both for an absent key and for a key
stored with value `None`. -/
def tsGet (m : TsMap) (source : String) : Option String :=
  match m.find? (fun p => p.1 == source) with
  | some p => p.2
  | none => none

/-- `get_snowflake_timestamps`: on success returns the fetched per-source map;
on any exception the handler prints and returns an empty dict.  `fetch = none`
models the remote query raising. -/
def get_snowflake_timestamps (fetch : Option TsMap) : TsMap :=
  match fetch with
  | some m => m
  | none => []

/-- The per-source loop of `needs_refresh`: a source with no remote timestamp
is skipped; a source with a remote timestamp reports stale when the cache has
no timestamp or a lexicographically smaller one. -/
def needsRefreshLoop (sf cached : TsMap) : List String → Bool
  | [] => false
  | source :: rest =>
    match tsGet sf source with
    | none => needsRefreshLoop sf cached rest
    | some sf_ts =>
      match tsGet cached source with
      | none => true
      | some cached_ts =>
        if cached_ts < sf_ts then true else needsRefreshLoop sf cached rest

/-- `needs_refresh(data_sources)`.  `cached` models the `cache_metadata`
table. -/
def needs_refresh (data_sources : List String) (fetch : Option TsMap)
    (cached : TsMap) : Bool :=
  needsRefreshLoop (get_snowflake_timestamps fetch) cached data_sources

/-- `approver_name = user_info["display_name"] if user_info else "UNKNOWN"`. -/
def approverDisplayName (ids : IdentityState) : Option String :=
  match get_effective_user ids with
  | some u => u.display_name
  | none => some "UNKNOWN"

/-- `approver_title = user_info["title"] if user_info else None`. -/
def approverTitle (ids : IdentityState) : Option String :=
  (get_effective_user ids).bind (fun u => u.title)

/-- `current_user = user_info["username"] if user_info else "UNKNOWN"`. -/
def effectiveUsername (ids : IdentityState) : String :=
  match get_effective_user ids with
  | some u => u.username
  | none => "UNKNOWN"

/-- `withdrawn_by_name = user_info["display_name"] if user_info else
current_user` (where `current_user` is `"UNKNOWN"` in that branch). -/
def withdrawnByNameOf (ids : IdentityState) : Option String :=
  match get_effective_user ids with
  | some u => u.display_name
  | none => some "UNKNOWN"

/-- The four legacy per-level approval slots. -/
inductive LegacySlot where
  | dm
  | rd
  | avp
  | gvp
deriving Repr, DecidableEq

/-- `legacy_col_map = {1: "dm", 2: "rd", 3: "avp", 4: "gvp"}`. -/
def legacySlotMap (step_order : Nat) : Option LegacySlot :=
  if step_order == 1 then some .dm
  else if step_order == 2 then some .rd
  else if step_order == 3 then some .avp
  else if step_order == 4 then some .gvp
  else none

/-- Writing the four per-level approval columns of one legacy slot (or nothing
when the ordinal has no legacy slot). -/
def applyLegacyUpdates (slot : Option LegacySlot) (approver_name : Option String)
    (approver_title : Option String) (now : String) (comments : Option String)
    (r : Request) : Request :=
  match slot with
  | none => r
  | some .dm =>
    { r with dm_approved_by := approver_name, dm_approved_by_title := approver_title,
             dm_approved_at := some now, dm_comments := comments }
  | some .rd =>
    { r with rd_approved_by := approver_name, rd_approved_by_title := approver_title,
             rd_approved_at := some now, rd_comments := comments }
  | some .avp =>
    { r with avp_approved_by := approver_name, avp_approved_by_title := approver_title,
             avp_approved_at := some now, avp_comments := comments }
  | some .gvp =>
    { r with gvp_approved_by := approver_name, gvp_approved_by_title := approver_title,
             gvp_approved_at := some now, gvp_comments := comments }

/-- The `status_transitions` dict of the legacy (step-less) approval branch:
new status, legacy slot, and new approval level per current status. -/
def status_transitions (status : String) : Option (String × LegacySlot × Int) :=
  if status == "SUBMITTED" then some ("DM_APPROVED", LegacySlot.dm, 2)
  else if status == "DM_APPROVED" then some ("RD_APPROVED", LegacySlot.rd, 3)
  else if status == "RD_APPROVED" then some ("AVP_APPROVED", LegacySlot.avp, 4)
  else if status == "AVP_APPROVED" then some ("FINAL_APPROVED", LegacySlot.gvp, 5)
  else none

/-- The column dict written to the request row by the dynamic-chain branch of
`approve_request`: `cur` is the PENDING step found, `nxt` the step with the
next ordinal.  The GVP/final step yields `FINAL_APPROVED` keeping the level at
the step's ordinal; otherwise status remains `SUBMITTED`, the level becomes
the ordinal plus one, the next-approver pointer mirrors `nxt`, and the legacy
slot of the ordinal (1-4) receives the approval facts. -/
def dynamicApproveUpdate (ids : IdentityState) (now : String)
    (comments : Option String) (cur : ApprovalStep) (nxt : Option ApprovalStep)
    (r : Request) : Request :=
  applyLegacyUpdates (legacySlotMap cur.step_order) (approverDisplayName ids)
    (approverTitle ids) now comments
    { r with
      status := if cur.is_final_step then "FINAL_APPROVED" else "SUBMITTED",
      current_approval_level :=
        if cur.is_final_step then (cur.step_order : Int) else (cur.step_order : Int) + 1,
      next_approver_name :=
        if cur.is_final_step then none else nxt.bind (fun s => s.approver_name),
      next_approver_title :=
        if cur.is_final_step then none else nxt.bind (fun s => s.approver_title),
      next_approver_id :=
        if cur.is_final_step then none else nxt.bind (fun s => s.approver_employee_id),
      updated_at := some now }

/-- `approve_request(request_id)`. -/
def approve_request (st : CacheState) (request_id : Int) (ids : IdentityState)
    (now : String) (comments : Option String) : Except ApiError CacheState :=
  let approver_name := approverDisplayName ids
  let approver_title := approverTitle ids
  match getRequest st request_id with
  | none => Except.error ⟨404, "Request not found"⟩
  | some row =>
    if has_approval_steps st request_id then
      let steps := get_cached_approval_steps st request_id
      match steps.find? (fun s => s.status == "PENDING") with
      | none => Except.error ⟨400, "No pending approval step found"⟩
      | some current_step =>
        let st1 : CacheState := { st with steps := st.steps.map (fun s =>
          if s.request_id == request_id && s.step_order == current_step.step_order then
            { s with status := "APPROVED", approved_at := some now, comments := comments }
          else s) }
        let next_step := steps.find? (fun s => s.step_order == current_step.step_order + 1)
        Except.ok (update_cache_request st1 request_id
          (dynamicApproveUpdate ids now comments current_step next_step))
    else
      match status_transitions row.status with
      | none => Except.error ⟨400, "Request cannot be approved in current status"⟩
      | some t =>
        Except.ok (update_cache_request st request_id (fun r =>
          applyLegacyUpdates (some t.2.1) approver_name approver_title now comments
            { r with status := t.1, current_approval_level := t.2.2,
                     updated_at := some now }))

/-- The status list `['SUBMITTED', 'DM_APPROVED', 'RD_APPROVED',
'AVP_APPROVED']` used by withdraw/reject/send-back/deny eligibility checks. -/
def activeStatuses : List String :=
  ["SUBMITTED", "DM_APPROVED", "RD_APPROVED", "AVP_APPROVED"]

/-- The column dict written to the request row by `withdraw_request`: reset to
DRAFT at level 0, clear the next-approver pointer and all sixteen per-level
legacy approval facts, and record the withdraw audit fields. -/
def withdrawUpdate (ids : IdentityState) (now : String) (comment : String)
    (r : Request) : Request :=
  { r with
    status := "DRAFT",
    current_approval_level := 0,
    next_approver_name := none, next_approver_title := none, next_approver_id := none,
    dm_approved_by := none, dm_approved_by_title := none,
    dm_approved_at := none, dm_comments := none,
    rd_approved_by := none, rd_approved_by_title := none,
    rd_approved_at := none, rd_comments := none,
    avp_approved_by := none, avp_approved_by_title := none,
    avp_approved_at := none, avp_comments := none,
    gvp_approved_by := none, gvp_approved_by_title := none,
    gvp_approved_at := none, gvp_comments := none,
    withdrawn_by := some (effectiveUsername ids),
    withdrawn_by_name := withdrawnByNameOf ids,
    withdrawn_at := some now, withdrawn_comment := some comment,
    updated_at := some now }

/-- `withdraw_request(request_id)` with its nested eligibility condition
translated literally: the request is refused only when the outer condition
(status outside the list and not `'SUBMITTED'`) and the inner condition (no
approval steps and status outside the list) both hold. -/
def withdraw_request (st : CacheState) (request_id : Int) (ids : IdentityState)
    (now : String) (comment : String) : Except ApiError CacheState :=
  match getRequest st request_id with
  | none => Except.error ⟨404, "Request not found"⟩
  | some row =>
    let current_status := row.status
    if (!(activeStatuses.contains current_status) && current_status != "SUBMITTED")
        && (!(has_approval_steps st request_id)
            && !(activeStatuses.contains current_status)) then
      Except.error ⟨400, "Cannot withdraw request in current status"⟩
    else
      let st1 := update_cache_request st request_id (withdrawUpdate ids now comment)
      Except.ok { st1 with steps := st1.steps.filter (fun s => s.request_id != request_id) }

/-- The column dict written to the request row by `send_back_for_revision`:
reset to DRAFT at level 0, clear the next-approver pointer, and store the
send-back comments into the gvp comments column. -/
def sendBackUpdate (comments : Option String) (now : String) (r : Request) :
    Request :=
  { r with
    status := "DRAFT", current_approval_level := 0,
    next_approver_name := none, next_approver_title := none, next_approver_id := none,
    gvp_comments := comments, updated_at := some now }

/-- `send_back_for_revision(request_id)`. -/
def send_back_for_revision (st : CacheState) (request_id : Int)
    (comments : Option String) (now : String) : Except ApiError CacheState :=
  match getRequest st request_id with
  | none => Except.error ⟨404, "Request not found"⟩
  | some row =>
    if !(activeStatuses.contains row.status) then
      Except.error ⟨400, "Request cannot be sent back in current status"⟩
    else
      let st1 := update_cache_request st request_id (sendBackUpdate comments now)
      Except.ok { st1 with steps := st1.steps.filter (fun s => s.request_id != request_id) }

/-- `submit_request(request_id)`.  Returns the updated cache and the resolved
chain (the response payload). -/
def submit_request (st : CacheState) (request_id : Int)
    (finalApprovers : String → Option Int) (dir : Int → Option Employee)
    (ids : IdentityState) (comment : Option String) (now : String) :
    Except ApiError (CacheState × List ChainEntry) :=
  match getRequest st request_id with
  | none => Except.error ⟨404, "Request not found"⟩
  | some row =>
    if row.status != "DRAFT" then
      Except.error ⟨400, "Can only submit requests in DRAFT status"⟩
    else
      let ae_employee_id := pyOrInt row.on_behalf_of_employee_id row.created_by_employee_id
      let chain :=
        if truthyOptInt ae_employee_id && truthyOptStr row.theater then
          resolve_approval_chain finalApprovers dir (ae_employee_id.getD 0) (row.theater.getD "")
        else []
      let submitted_by_name := (get_effective_user ids).bind (fun u => u.display_name)
      let next := chain.head?
      let st1 := update_cache_request st request_id (fun r => { r with
        status := "SUBMITTED", current_approval_level := 1,
        next_approver_name := next.map (fun e => e.name),
        next_approver_title := next.bind (fun e => e.title),
        next_approver_id := next.map (fun e => e.employee_id),
        submitted_comment := comment, submitted_by_name := submitted_by_name,
        submitted_at := some now, updated_at := some now })
      let st2 :=
        if !chain.isEmpty then
          { st1 with steps := insert_approval_steps_cache request_id chain st1.steps now }
        else st1
      Except.ok (st2, chain)

/-- The JSON body of a PUT `/api/requests/<id>`: the `col_map` keys plus the
draft-comment and auto-submit controls.  A key absent from the JSON and a key
present with a null value are both modelled as `none`. -/
structure UpdatePayload where
  request_title : Option String
  account_id : Option String
  account_name : Option String
  investment_type : Option String
  requested_amount : Option Int
  investment_quarter : Option String
  business_justification : Option String
  expected_outcome : Option String
  risk_assessment : Option String
  theater : Option String
  industry_segment : Option String
  sfdc_opportunity_link : Option String
  expected_roi : Option String
  draft_comment : Option String
  auto_submit : Bool
  submit_comment : Option String
deriving Repr, DecidableEq

/-- An `UpdatePayload` with no keys present. -/
def emptyPayload : UpdatePayload :=
  { request_title := none, account_id := none, account_name := none,
    investment_type := none, requested_amount := none, investment_quarter := none,
    business_justification := none, expected_outcome := none, risk_assessment := none,
    theater := none, industry_segment := none, sfdc_opportunity_link := none,
    expected_roi := none, draft_comment := none, auto_submit := false,
    submit_comment := none }

/-- Applying the `col_map` columns present in the payload to a cached row. -/
def applyColUpdates (d : UpdatePayload) (r : Request) : Request :=
  { r with
    request_title := d.request_title.orElse (fun _ => r.request_title),
    account_id := d.account_id.orElse (fun _ => r.account_id),
    account_name := d.account_name.orElse (fun _ => r.account_name),
    investment_type := d.investment_type.orElse (fun _ => r.investment_type),
    requested_amount := d.requested_amount.orElse (fun _ => r.requested_amount),
    investment_quarter := d.investment_quarter.orElse (fun _ => r.investment_quarter),
    business_justification := d.business_justification.orElse (fun _ => r.business_justification),
    expected_outcome := d.expected_outcome.orElse (fun _ => r.expected_outcome),
    risk_assessment := d.risk_assessment.orElse (fun _ => r.risk_assessment),
    theater := d.theater.orElse (fun _ => r.theater),
    industry_segment := d.industry_segment.orElse (fun _ => r.industry_segment),
    sfdc_opportunity_link := d.sfdc_opportunity_link.orElse (fun _ => r.sfdc_opportunity_link),
    expected_roi := d.expected_roi.orElse (fun _ => r.expected_roi) }

/-- Whether the payload carries any `col_map` key. -/
def hasFieldUpdates (d : UpdatePayload) : Bool :=
  d.request_title.isSome || d.account_id.isSome || d.account_name.isSome ||
  d.investment_type.isSome || d.requested_amount.isSome || d.investment_quarter.isSome ||
  d.business_justification.isSome || d.expected_outcome.isSome || d.risk_assessment.isSome ||
  d.theater.isSome || d.industry_segment.isSome || d.sfdc_opportunity_link.isSome ||
  d.expected_roi.isSome

/-- `update_request(request_id)` (PUT).  The boolean in the success payload
records that a background Snowflake sync was scheduled; an error return models
the source returning before any cache write and before scheduling a sync. -/
def update_request (st : CacheState) (request_id : Int) (d : UpdatePayload)
    (finalApprovers : String → Option Int) (dir : Int → Option Employee)
    (ids : IdentityState) (now : String) : Except ApiError (CacheState × Bool) :=
  match getRequest st request_id with
  | none => Except.error ⟨404, "Request not found"⟩
  | some row =>
    if row.status != "DRAFT" then
      Except.error ⟨400, "Cannot edit request that is not in DRAFT status"⟩
    else
      let user_info := get_effective_user ids
      let hasUpdates := hasFieldUpdates d || truthyOptStr d.draft_comment
      let st1 :=
        if hasUpdates then
          update_cache_request st request_id (fun r =>
            let r1 := applyColUpdates d r
            let r2 :=
              if truthyOptStr d.draft_comment then
                { r1 with draft_comment := d.draft_comment,
                          draft_by_name := user_info.bind (fun u => u.display_name),
                          draft_at := some now }
              else r1
            { r2 with updated_at := some now })
        else st
      if d.auto_submit then
        let row2 := getRequest st1 request_id
        let ae_employee_id :=
          row2.bind (fun r2 => pyOrInt r2.on_behalf_of_employee_id r2.created_by_employee_id)
        let theater := row2.bind (fun r2 => r2.theater)
        let chain :=
          if truthyOptInt ae_employee_id && truthyOptStr theater then
            resolve_approval_chain finalApprovers dir (ae_employee_id.getD 0) (theater.getD "")
          else []
        let next := chain.head?
        let st2 := update_cache_request st1 request_id (fun r => { r with
          status := "SUBMITTED", current_approval_level := 1,
          next_approver_name := next.map (fun e => e.name),
          next_approver_title := next.bind (fun e => e.title),
          next_approver_id := next.map (fun e => e.employee_id),
          submitted_comment := d.submit_comment,
          submitted_by_name := user_info.bind (fun u => u.display_name),
          submitted_at := some now, updated_at := some now })
        let st3 :=
          if !chain.isEmpty then
            { st2 with steps := insert_approval_steps_cache request_id chain st2.steps now }
          else st2
        Except.ok (st3, true)
      else
        Except.ok (st1, true)

/-- `delete_request(request_id)` (DELETE).  Same conventions as
`update_request`. -/
def delete_request (st : CacheState) (request_id : Int) :
    Except ApiError (CacheState × Bool) :=
  match getRequest st request_id with
  | none => Except.error ⟨404, "Request not found"⟩
  | some row =>
    if row.status != "DRAFT" then
      Except.error ⟨400, "Cannot delete request that is not in DRAFT status"⟩
    else
      let st1 : CacheState :=
        { st with requests := st.requests.filter (fun r => r.request_id != request_id) }
      Except.ok ({ st1 with steps := st1.steps.filter (fun s => s.request_id != request_id) }, true)

/-! Concrete instances used by witnesses and counterexamples. -/

/-- A request row with every nullable column NULL, used as a base for concrete
test rows. -/
def emptyRequest : Request :=
  { request_id := 0, request_title := none, account_id := none, account_name := none,
    investment_type := none, requested_amount := none, investment_quarter := none,
    business_justification := none, expected_outcome := none, risk_assessment := none,
    created_by := none, created_by_name := none, created_by_employee_id := none,
    created_at := none, theater := none, industry_segment := none,
    status := "DRAFT", current_approval_level := 0,
    next_approver_id := none, next_approver_name := none, next_approver_title := none,
    dm_approved_by := none, dm_approved_by_title := none, dm_approved_at := none,
    dm_comments := none,
    rd_approved_by := none, rd_approved_by_title := none, rd_approved_at := none,
    rd_comments := none,
    avp_approved_by := none, avp_approved_by_title := none, avp_approved_at := none,
    avp_comments := none,
    gvp_approved_by := none, gvp_approved_by_title := none, gvp_approved_at := none,
    gvp_comments := none,
    updated_at := none, withdrawn_by := none, withdrawn_by_name := none,
    withdrawn_at := none, withdrawn_comment := none,
    submitted_comment := none, submitted_by_name := none, submitted_at := none,
    draft_comment := none, draft_by_name := none, draft_at := none,
    on_behalf_of_employee_id := none, on_behalf_of_name := none,
    sfdc_opportunity_link := none, expected_roi := none }

def exCachedUser : UserInfo :=
  ⟨"TLEGRAND", some "Tracy Legrand", some 1, some "Director", none, none, none, none⟩

def exImpersonated : UserInfo :=
  ⟨"ALICE", some "Alice Almond", some 42, some "AE", none, none, none, none⟩

/-- No impersonation override set. -/
def exIds : IdentityState := ⟨none, some exCachedUser⟩

/-- Impersonation override active. -/
def exIdsImp : IdentityState := ⟨some exImpersonated, some exCachedUser⟩

/-- A three-level hierarchy: employee 1 reports to 2, who reports to 3. -/
def exDir : Int → Option Employee := fun i =>
  if i == 1 then some ⟨"E One", some "AE", some 2, true⟩
  else if i == 2 then some ⟨"E Two", some "Mgr", some 3, true⟩
  else if i == 3 then some ⟨"E Three", some "GVP", none, true⟩
  else none

/-- Theater EMEA's final approver is employee 3. -/
def exFA : String → Option Int := fun t => if t == "EMEA" then some 3 else none

/-- Theater EMEA configured with final approver 99, who has no directory
record. -/
def exFA99 : String → Option Int := fun t => if t == "EMEA" then some 99 else none

/-- An empty employee directory. -/
def exDirEmpty : Int → Option Employee := fun _ => none

/-- Chain entries of the two-level EMEA chain of `exDir`/`exFA`. -/
def exEntryA : ChainEntry := ⟨2, "E Two", some "Mgr", 2, false⟩

def exEntryB : ChainEntry := ⟨3, "E Three", some "GVP", 3, true⟩

/-- C1: a DRAFT request whose submission resolves a two-step chain. -/
def c1Request : Request :=
  { emptyRequest with request_id := 11, status := "DRAFT",
                      created_by_employee_id := some 1, theater := some "EMEA" }

def c1State : CacheState := ⟨[c1Request], []⟩

/-- The number of PENDING step rows of a request right after a successful
submission (0 when the submission is refused). -/
def pendingCountAfterSubmit (st : CacheState) (request_id : Int)
    (finalApprovers : String → Option Int) (dir : Int → Option Employee)
    (ids : IdentityState) (comment : Option String) (now : String) : Nat :=
  match submit_request st request_id finalApprovers dir ids comment now with
  | Except.ok p =>
    (p.1.steps.filter (fun s => s.request_id == request_id && s.status == "PENDING")).length
  | Except.error _ => 0

/-- C2/C3 witnesses: a submitted request with a two-step dynamic chain. -/
def c2Step1 : ApprovalStep :=
  ⟨-901, 9, 1, some 2, some "E Two", some "Mgr", "PENDING", none, none, false, some "t0"⟩

def c2Step2 : ApprovalStep :=
  ⟨-902, 9, 2, some 3, some "E Three", some "GVP", "PENDING", none, none, true, some "t0"⟩

def c2Request : Request :=
  { emptyRequest with request_id := 9, status := "SUBMITTED", current_approval_level := 1,
                      next_approver_id := some 2, next_approver_name := some "E Two",
                      next_approver_title := some "Mgr" }

def c2State : CacheState := ⟨[c2Request], [c2Step2, c2Step1]⟩

/-- C3 witness: a step-less submitted request. -/
def c3Request : Request :=
  { emptyRequest with request_id := 8, status := "SUBMITTED", current_approval_level := 1 }

def c3State : CacheState := ⟨[c3Request], []⟩

/-- C6: a FINAL_APPROVED request that still has an approval-step row. -/
def c6Step : ApprovalStep :=
  ⟨-701, 7, 1, some 10, some "A", some "T", "APPROVED", some "t0", none, true, some "t0"⟩

def c6Request : Request := { emptyRequest with request_id := 7, status := "FINAL_APPROVED" }

def c6State : CacheState := ⟨[c6Request], [c6Step]⟩

/-- The request status visible in the cache after a withdraw call (`none` when
the call errors or the row is absent). -/
def statusAfterWithdraw (st : CacheState) (request_id : Int) (ids : IdentityState)
    (now comment : String) : Option String :=
  match withdraw_request st request_id ids now comment with
  | Except.ok st' => (getRequest st' request_id).map (fun r => r.status)
  | Except.error _ => none

/-- C7: a mid-chain request with a recorded DM approval fact. -/
def c7Request : Request :=
  { emptyRequest with request_id := 10, status := "DM_APPROVED", current_approval_level := 2,
                      dm_approved_by := some "Bob", dm_approved_by_title := some "Mgr",
                      dm_approved_at := some "t0", dm_comments := some "ok" }

def c7State : CacheState := ⟨[c7Request], []⟩

/-- The `dm_approved_by` column after a send-back call. -/
def dmApprovedByAfterSendBack (st : CacheState) (request_id : Int)
    (comments : Option String) (now : String) : Option (Option String) :=
  match send_back_for_revision st request_id comments now with
  | Except.ok st' => (getRequest st' request_id).map (fun r => r.dm_approved_by)
  | Except.error _ => none

/-- The `withdrawn_by` audit column after a withdraw call. -/
def withdrawnByAfterWithdraw (st : CacheState) (request_id : Int) (ids : IdentityState)
    (now comment : String) : Option (Option String) :=
  match withdraw_request st request_id ids now comment with
  | Except.ok st' => (getRequest st' request_id).map (fun r => r.withdrawn_by)
  | Except.error _ => none

/-- C9: a submitted request withdrawn while the administrator impersonates
another employee. -/
def c9Request : Request :=
  { emptyRequest with request_id := 12, status := "SUBMITTED", current_approval_level := 1 }

def c9State : CacheState := ⟨[c9Request], []⟩

/-- C5: the spec's staleness condition, stated from the spec's words: some
queried source has no cached timestamp (cold cache), or a remote timestamp
lexicographically strictly greater than the cached one. -/
def specStaleCondition (data_sources : List String) (sf cached : TsMap) : Prop :=
  ∃ s ∈ data_sources, tsGet cached s = none ∨
    ∃ r c, tsGet sf s = some r ∧ tsGet cached s = some c ∧ c < r

/-- The cache state produced by withdrawing request 12 of `c9State` while the
impersonation override is active. -/
def c9AfterState : CacheState :=
  { update_cache_request c9State 12 (withdrawUpdate exIdsImp "t1" "oops") with
    steps := c9State.steps.filter (fun s => s.request_id != 12) }

/-! Helper lemmas. -/

theorem find?_map_update (l : List Request) (request_id : Int) (f : Request → Request)
    (hf : ∀ r, (f r).request_id = r.request_id) :
    (l.map (fun r => if r.request_id == request_id then f r else r)).find?
        (fun r => r.request_id == request_id)
      = (l.find? (fun r => r.request_id == request_id)).map f := by
  induction l with
  | nil => rfl
  | cons a t ih =>
    simp only [List.map_cons]
    by_cases h : a.request_id = request_id
    · have hb : (a.request_id == request_id) = true := beq_iff_eq.mpr h
      rw [if_pos hb,
        List.find?_cons_of_pos (p := fun r : Request => r.request_id == request_id) _ (by simp [hf, h]),
        List.find?_cons_of_pos (p := fun r : Request => r.request_id == request_id) _ hb]
      simp
    · have hb : ¬ ((a.request_id == request_id) = true) := by simp [h]
      rw [if_neg hb,
        List.find?_cons_of_neg (p := fun r : Request => r.request_id == request_id) _ hb,
        List.find?_cons_of_neg (p := fun r : Request => r.request_id == request_id) _ hb]
      exact ih

theorem getRequest_update_cache (st : CacheState) (request_id : Int)
    (f : Request → Request) (hf : ∀ r, (f r).request_id = r.request_id) :
    getRequest (update_cache_request st request_id f) request_id
      = (getRequest st request_id).map f := by
  simp only [getRequest, update_cache_request]
  exact find?_map_update st.requests request_id f hf

theorem applyLegacyUpdates_request_id (slot : Option LegacySlot)
    (n t : Option String) (now : String) (c : Option String) (r : Request) :
    (applyLegacyUpdates slot n t now c r).request_id = r.request_id := by
  cases slot with
  | none => rfl
  | some s => cases s <;> rfl

theorem buildSteps_status (request_id : Int) (now : String) (i : Nat)
    (chain : List ChainEntry) :
    ∀ s ∈ buildSteps request_id now i chain, s.status = "PENDING" := by
  induction chain generalizing i with
  | nil => intro s hs; simp [buildSteps] at hs
  | cons e rest ih =>
    intro s hs
    simp only [buildSteps, List.mem_cons] at hs
    rcases hs with h | h
    · subst h; rfl
    · exact ih (i + 1) s h

theorem buildSteps_request_id (request_id : Int) (now : String) (i : Nat)
    (chain : List ChainEntry) :
    ∀ s ∈ buildSteps request_id now i chain, s.request_id = request_id := by
  induction chain generalizing i with
  | nil => intro s hs; simp [buildSteps] at hs
  | cons e rest ih =>
    intro s hs
    simp only [buildSteps, List.mem_cons] at hs
    rcases hs with h | h
    · subst h; rfl
    · exact ih (i + 1) s h

theorem buildSteps_step_order (request_id : Int) (now : String) (i : Nat)
    (chain : List ChainEntry) :
    (buildSteps request_id now i chain).map (fun s => s.step_order)
      = (List.range chain.length).map (fun k => k + i + 1) := by
  induction chain generalizing i with
  | nil => rfl
  | cons e rest ih =>
    have harith : ∀ k : Nat, k + 1 + i + 1 = k + (i + 1) + 1 := by omega
    simp only [buildSteps, List.map_cons, List.length_cons, List.range_succ_eq_map,
      List.map_map, ih (i + 1)]
    simp [Function.comp, harith]

theorem mem_insertByOrder {x s : ApprovalStep} {l : List ApprovalStep} :
    x ∈ insertByOrder s l ↔ x = s ∨ x ∈ l := by
  induction l with
  | nil => simp [insertByOrder]
  | cons t ts ih =>
    by_cases h : s.step_order ≤ t.step_order
    · simp [insertByOrder, h, List.mem_cons]
    · simp only [insertByOrder, if_neg h, List.mem_cons, ih]
      tauto

theorem pairwise_insertByOrder {s : ApprovalStep} {l : List ApprovalStep}
    (h : l.Pairwise (fun a b => a.step_order ≤ b.step_order)) :
    (insertByOrder s l).Pairwise (fun a b => a.step_order ≤ b.step_order) := by
  induction l with
  | nil => simp [insertByOrder]
  | cons t ts ih =>
    rcases List.pairwise_cons.mp h with ⟨ht, hts⟩
    by_cases hle : s.step_order ≤ t.step_order
    · rw [insertByOrder, if_pos hle]
      refine List.pairwise_cons.mpr ⟨?_, h⟩
      intro b hb
      rcases List.mem_cons.mp hb with rfl | hb
      · exact hle
      · exact le_trans hle (ht b hb)
    · rw [insertByOrder, if_neg hle]
      refine List.pairwise_cons.mpr ⟨?_, ih hts⟩
      intro b hb
      rcases mem_insertByOrder.mp hb with rfl | hb
      · exact le_of_not_le hle
      · exact ht b hb

theorem mem_sortByStepOrder {x : ApprovalStep} {l : List ApprovalStep} :
    x ∈ sortByStepOrder l ↔ x ∈ l := by
  induction l with
  | nil => simp [sortByStepOrder]
  | cons s rest ih => simp [sortByStepOrder, mem_insertByOrder, ih]

theorem pairwise_sortByStepOrder (l : List ApprovalStep) :
    (sortByStepOrder l).Pairwise (fun a b => a.step_order ≤ b.step_order) := by
  induction l with
  | nil => exact List.Pairwise.nil
  | cons s rest ih => exact pairwise_insertByOrder ih

theorem find?_min_step_order {p : ApprovalStep → Bool} {l : List ApprovalStep}
    {x : ApprovalStep}
    (hs : l.Pairwise (fun a b => a.step_order ≤ b.step_order))
    (hx : l.find? p = some x) :
    ∀ y ∈ l, p y = true → x.step_order ≤ y.step_order := by
  induction l with
  | nil => simp at hx
  | cons a t ih =>
    rcases List.pairwise_cons.mp hs with ⟨ha, ht⟩
    by_cases hp : p a = true
    · rw [List.find?_cons_of_pos _ hp] at hx
      cases hx
      intro y hy _
      rcases List.mem_cons.mp hy with rfl | hy
      · exact le_refl _
      · exact ha y hy
    · rw [List.find?_cons_of_neg _ (by simpa using hp)] at hx
      intro y hy hpy
      rcases List.mem_cons.mp hy with rfl | hy
      · exact absurd hpy hp
      · exact ih ht hx y hy hpy

/-! Claim counterexamples and code evaluations (closed statements on concrete
inputs). -/

/-- C1: the claim states that immediately after submission creates the steps
for a request, at most one of the newly created steps is PENDING.  FALSE on
the code: `insert_approval_steps_cache` inserts every chain entry with status
`'PENDING'`, so submitting a request whose resolved chain has two entries
leaves two PENDING steps. -/
theorem C1_counterexample :
    pendingCountAfterSubmit c1State 11 exFA exDir exIds (some "pls") "t1" = 2 ∧
    ¬ pendingCountAfterSubmit c1State 11 exFA exDir exIds (some "pls") "t1" ≤ 1 := by
  constructor <;> decide

/-- C4: the claim states that any remote-communication failure during the
staleness check makes `needs_refresh` report stale (true).  The code instead
reports FRESH: `get_snowflake_timestamps` swallows the exception and returns
an empty dict, after which every source is skipped (`sf_ts is None`) and the
loop falls through to `return False` — both with a warm and with a cold
cache-metadata table. -/
theorem C4_fetch_failure_reported_fresh :
    needs_refresh ["INVESTMENT_REQUESTS"] none
        [("INVESTMENT_REQUESTS", some "2025-01-01T00:00:00")] = false ∧
    needs_refresh ["INVESTMENT_REQUESTS"] none [] = false := by
  constructor <;> rfl

/-- C5: the claimed equivalence (stale iff some source is cold or remotely
newer) fails for a source whose fetched remote timestamp is NULL: the cache is
cold for it, yet the code skips it (`if sf_ts is None: continue`) and returns
false. -/
theorem C5_counterexample :
    ¬ ((needs_refresh ["INVESTMENT_REQUESTS"]
          (some [("INVESTMENT_REQUESTS", none)]) [] = true) ↔
        specStaleCondition ["INVESTMENT_REQUESTS"] [("INVESTMENT_REQUESTS", none)] []) := by
  intro h
  have hc : specStaleCondition ["INVESTMENT_REQUESTS"]
      [("INVESTMENT_REQUESTS", none)] [] :=
    ⟨"INVESTMENT_REQUESTS", by simp, Or.inl rfl⟩
  exact absurd (h.mpr hc) (by decide)

/-- C6: the claim states that withdraw fails with a client error for any
request outside the four in-flight statuses, regardless of approval steps.
The code's nested eligibility condition lets a FINAL_APPROVED request WITH
step rows be withdrawn: on `c6State` the call succeeds and resets the request
to DRAFT. -/
theorem C6_withdraw_ignores_status_when_steps_exist :
    (getRequest c6State 7).map (fun r => r.status) = some "FINAL_APPROVED" ∧
    has_approval_steps c6State 7 = true ∧
    statusAfterWithdraw c6State 7 exIds "t1" "c" = some "DRAFT" := by
  exact ⟨rfl, rfl, rfl⟩

/-- C7: the claim states that send-back clears every per-level legacy approval
fact.  FALSE on the code: `send_back_for_revision` leaves the dm/rd/avp slots
untouched (and stores its comment into the gvp comments slot); after sending
back `c7State`'s request, `dm_approved_by` is still "Bob". -/
theorem C7_counterexample :
    dmApprovedByAfterSendBack c7State 10 (some "fix") "t1" = some (some "Bob") ∧
    (some (some "Bob") : Option (Option String)) ≠ some none := by
  exact ⟨rfl, by decide⟩

/-- C8: the claim states that for every theater with a configured final
approver the resolver returns a non-empty chain ending in the final approver.
FALSE on the code: when the configured final approver (99) has no active
directory record, the explicit append is skipped and the chain is empty. -/
theorem C8_counterexample :
    exFA99 "EMEA" = some 99 ∧
    resolve_approval_chain exFA99 exDirEmpty 1 "EMEA" = [] := by
  exact ⟨rfl, rfl⟩

/-- C9: the claim states that audit fields such as withdrawn-by record the
authenticated identity.  FALSE on the code: `withdraw_request` records the
EFFECTIVE user, so withdrawing while impersonating ALICE stores "ALICE"
although the authenticated username is "TLEGRAND". -/
theorem C9_counterexample :
    withdrawnByAfterWithdraw c9State 12 exIdsImp "t1" "oops" = some (some "ALICE") ∧
    get_real_username exIdsImp = some "TLEGRAND" ∧
    ("ALICE" : String) ≠ "TLEGRAND" := by
  exact ⟨rfl, rfl, by decide⟩

/-- C1 (amended): submission creates the request's step rows wholesale:
after `insert_approval_steps_cache` the step rows of the request are exactly
the freshly built rows, their ordinals are contiguous starting at 1, and EVERY
newly created step (not at most one) has status PENDING. -/
theorem C1_amended (request_id : Int) (chain : List ChainEntry)
    (steps : List ApprovalStep) (now : String) :
    (insert_approval_steps_cache request_id chain steps now).filter
        (fun s => s.request_id == request_id) = buildSteps request_id now 0 chain ∧
    (buildSteps request_id now 0 chain).map (fun s => s.step_order)
      = (List.range chain.length).map (fun k => k + 1) ∧
    ∀ s ∈ buildSteps request_id now 0 chain, s.status = "PENDING" := by
  refine ⟨?_, ?_, buildSteps_status request_id now 0 chain⟩
  · unfold insert_approval_steps_cache
    rw [List.filter_append]
    have h1 : (steps.filter (fun s => s.request_id != request_id)).filter
        (fun s => s.request_id == request_id) = [] := by
      rw [List.filter_eq_nil_iff]
      intro a ha
      have h2 := (List.mem_filter.mp ha).2
      simp only [bne_iff_ne, ne_eq] at h2
      simp [h2]
    have h2 : (buildSteps request_id now 0 chain).filter
        (fun s => s.request_id == request_id) = buildSteps request_id now 0 chain := by
      rw [List.filter_eq_self]
      intro a ha
      simp [buildSteps_request_id request_id now 0 chain a ha]
    rw [h1, h2, List.nil_append]
  · have h := buildSteps_step_order request_id now 0 chain
    simpa using h

/-- C1 witness: on the two-entry chain, the rows created for request 5 have
ordinals 1, 2 and every created row is PENDING. -/
theorem C1_amended_witness :
    (insert_approval_steps_cache 5 [exEntryA, exEntryB] [] "t0").filter
        (fun s => s.request_id == 5) = buildSteps 5 "t0" 0 [exEntryA, exEntryB] ∧
    (buildSteps 5 "t0" 0 [exEntryA, exEntryB]).map (fun s => s.step_order) = [1, 2] := by
  have h := C1_amended 5 [exEntryA, exEntryB] [] "t0"
  exact ⟨h.1, h.2.1.trans (by decide)⟩

/-- C5 (amended): with a successfully fetched remote timestamp map,
`needs_refresh` returns true iff some queried source HAS a (non-null) remote
timestamp and either no cached timestamp (cold cache) or a cached timestamp
lexicographically strictly smaller; sources without a remote timestamp are
skipped even when the cache is cold. -/
theorem C5_amended (data_sources : List String) (sf cached : TsMap) :
    needs_refresh data_sources (some sf) cached = true ↔
      ∃ s ∈ data_sources, ∃ r, tsGet sf s = some r ∧
        (tsGet cached s = none ∨ ∃ c, tsGet cached s = some c ∧ c < r) := by
  unfold needs_refresh get_snowflake_timestamps
  dsimp only
  induction data_sources with
  | nil => simp [needsRefreshLoop]
  | cons a t ih =>
    rw [needsRefreshLoop]
    cases hsf : tsGet sf a with
    | none =>
      dsimp only
      rw [ih]
      constructor
      · rintro ⟨s, hs, hr⟩
        exact ⟨s, List.mem_cons_of_mem a hs, hr⟩
      · rintro ⟨s, hs, r, hr1, hr2⟩
        rcases List.mem_cons.mp hs with rfl | hs
        · rw [hsf] at hr1; cases hr1
        · exact ⟨s, hs, r, hr1, hr2⟩
    | some r0 =>
      dsimp only
      cases hc : tsGet cached a with
      | none =>
        dsimp only
        constructor
        · intro _
          exact ⟨a, List.mem_cons_self a t, r0, hsf, Or.inl hc⟩
        · intro _
          rfl
      | some c0 =>
        dsimp only
        by_cases hlt : c0 < r0
        · rw [if_pos hlt]
          constructor
          · intro _
            exact ⟨a, List.mem_cons_self a t, r0, hsf, Or.inr ⟨c0, hc, hlt⟩⟩
          · intro _
            rfl
        · rw [if_neg hlt, ih]
          constructor
          · rintro ⟨s, hs, hr⟩
            exact ⟨s, List.mem_cons_of_mem a hs, hr⟩
          · rintro ⟨s, hs, r, hr1, hr2⟩
            rcases List.mem_cons.mp hs with rfl | hs
            · rw [hsf] at hr1
              cases hr1
              rcases hr2 with h | ⟨c, hc1, hc2⟩
              · rw [hc] at h; cases h
              · rw [hc] at hc1; cases hc1; exact absurd hc2 hlt
            · exact ⟨s, hs, r, hr1, hr2⟩

/-- C3: for a step-less request, one `approve_request` call walks the fixed
legacy sequence SUBMITTED → DM_APPROVED(2) → RD_APPROVED(3) → AVP_APPROVED(4)
→ FINAL_APPROVED(5), recording approver, title, timestamp and comment in that
level's legacy slot (an increment of exactly 1 whenever status and level were
in the fixed correspondence); in any other status it returns a client error
and mutates nothing. -/
theorem C3_legacy_fixed_path (st : CacheState) (request_id : Int)
    (ids : IdentityState) (now : String) (comments : Option String) (row : Request)
    (hrow : getRequest st request_id = some row)
    (hns : has_approval_steps st request_id = false) :
    (row.status = "SUBMITTED" →
      ∃ st' row', approve_request st request_id ids now comments = Except.ok st' ∧
        getRequest st' request_id = some row' ∧
        row'.status = "DM_APPROVED" ∧ row'.current_approval_level = 2 ∧
        row'.dm_approved_by = approverDisplayName ids ∧
        row'.dm_approved_by_title = approverTitle ids ∧
        row'.dm_approved_at = some now ∧ row'.dm_comments = comments ∧
        (row.current_approval_level = 1 →
          row'.current_approval_level = row.current_approval_level + 1)) ∧
    (row.status = "DM_APPROVED" →
      ∃ st' row', approve_request st request_id ids now comments = Except.ok st' ∧
        getRequest st' request_id = some row' ∧
        row'.status = "RD_APPROVED" ∧ row'.current_approval_level = 3 ∧
        row'.rd_approved_by = approverDisplayName ids ∧
        row'.rd_approved_by_title = approverTitle ids ∧
        row'.rd_approved_at = some now ∧ row'.rd_comments = comments ∧
        (row.current_approval_level = 2 →
          row'.current_approval_level = row.current_approval_level + 1)) ∧
    (row.status = "RD_APPROVED" →
      ∃ st' row', approve_request st request_id ids now comments = Except.ok st' ∧
        getRequest st' request_id = some row' ∧
        row'.status = "AVP_APPROVED" ∧ row'.current_approval_level = 4 ∧
        row'.avp_approved_by = approverDisplayName ids ∧
        row'.avp_approved_by_title = approverTitle ids ∧
        row'.avp_approved_at = some now ∧ row'.avp_comments = comments ∧
        (row.current_approval_level = 3 →
          row'.current_approval_level = row.current_approval_level + 1)) ∧
    (row.status = "AVP_APPROVED" →
      ∃ st' row', approve_request st request_id ids now comments = Except.ok st' ∧
        getRequest st' request_id = some row' ∧
        row'.status = "FINAL_APPROVED" ∧ row'.current_approval_level = 5 ∧
        row'.gvp_approved_by = approverDisplayName ids ∧
        row'.gvp_approved_by_title = approverTitle ids ∧
        row'.gvp_approved_at = some now ∧ row'.gvp_comments = comments ∧
        (row.current_approval_level = 4 →
          row'.current_approval_level = row.current_approval_level + 1)) ∧
    (row.status ∉ activeStatuses →
      approve_request st request_id ids now comments
        = Except.error ⟨400, "Request cannot be approved in current status"⟩) := by
  have happ : ∀ (ns : String) (slot : LegacySlot) (lvl : Int),
      status_transitions row.status = some (ns, slot, lvl) →
      approve_request st request_id ids now comments = Except.ok
        (update_cache_request st request_id (fun r =>
          applyLegacyUpdates (some slot) (approverDisplayName ids) (approverTitle ids)
            now comments
            { r with status := ns, current_approval_level := lvl,
                     updated_at := some now })) := by
    intro ns slot lvl ht
    unfold approve_request
    rw [hrow]
    dsimp only
    rw [hns, ht]
    simp
  have hf : ∀ (ns : String) (slot : LegacySlot) (lvl : Int) (r : Request),
      ((fun r => applyLegacyUpdates (some slot) (approverDisplayName ids)
          (approverTitle ids) now comments
          { r with status := ns, current_approval_level := lvl,
                   updated_at := some now }) r).request_id = r.request_id := by
    intro ns slot lvl r
    exact applyLegacyUpdates_request_id _ _ _ _ _ _
  refine ⟨?_, ?_, ?_, ?_, ?_⟩
  · intro hs
    have heq := happ "DM_APPROVED" LegacySlot.dm 2 (by rw [hs]; rfl)
    refine ⟨_, applyLegacyUpdates (some LegacySlot.dm) (approverDisplayName ids)
        (approverTitle ids) now comments
        { row with status := "DM_APPROVED", current_approval_level := 2,
                    updated_at := some now },
      heq, ?_, rfl, rfl, rfl, rfl, rfl, rfl, ?_⟩
    · rw [getRequest_update_cache _ _ _ (hf "DM_APPROVED" LegacySlot.dm 2), hrow]
      rfl
    · intro h
      show (2 : Int) = row.current_approval_level + 1
      rw [h]
      decide
  · intro hs
    have heq := happ "RD_APPROVED" LegacySlot.rd 3 (by rw [hs]; rfl)
    refine ⟨_, applyLegacyUpdates (some LegacySlot.rd) (approverDisplayName ids)
        (approverTitle ids) now comments
        { row with status := "RD_APPROVED", current_approval_level := 3,
                    updated_at := some now },
      heq, ?_, rfl, rfl, rfl, rfl, rfl, rfl, ?_⟩
    · rw [getRequest_update_cache _ _ _ (hf "RD_APPROVED" LegacySlot.rd 3), hrow]
      rfl
    · intro h
      show (3 : Int) = row.current_approval_level + 1
      rw [h]
      decide
  · intro hs
    have heq := happ "AVP_APPROVED" LegacySlot.avp 4 (by rw [hs]; rfl)
    refine ⟨_, applyLegacyUpdates (some LegacySlot.avp) (approverDisplayName ids)
        (approverTitle ids) now comments
        { row with status := "AVP_APPROVED", current_approval_level := 4,
                    updated_at := some now },
      heq, ?_, rfl, rfl, rfl, rfl, rfl, rfl, ?_⟩
    · rw [getRequest_update_cache _ _ _ (hf "AVP_APPROVED" LegacySlot.avp 4), hrow]
      rfl
    · intro h
      show (4 : Int) = row.current_approval_level + 1
      rw [h]
      decide
  · intro hs
    have heq := happ "FINAL_APPROVED" LegacySlot.gvp 5 (by rw [hs]; rfl)
    refine ⟨_, applyLegacyUpdates (some LegacySlot.gvp) (approverDisplayName ids)
        (approverTitle ids) now comments
        { row with status := "FINAL_APPROVED", current_approval_level := 5,
                    updated_at := some now },
      heq, ?_, rfl, rfl, rfl, rfl, rfl, rfl, ?_⟩
    · rw [getRequest_update_cache _ _ _ (hf "FINAL_APPROVED" LegacySlot.gvp 5), hrow]
      rfl
    · intro h
      show (5 : Int) = row.current_approval_level + 1
      rw [h]
      decide
  · intro hs
    simp only [activeStatuses, List.mem_cons, List.mem_singleton, not_or] at hs
    obtain ⟨h1, h2, h3, h4⟩ := hs
    have ht : status_transitions row.status = none := by
      unfold status_transitions
      simp [h1, h2, h3, h4]
    unfold approve_request
    rw [hrow]
    dsimp only
    rw [hns, ht]
    rfl

/-- C3 witness: approving the step-less SUBMITTED request 8 yields
DM_APPROVED at level 2 with the DM slot recorded. -/
theorem C3_legacy_fixed_path_witness :
    ∃ st' row', approve_request c3State 8 exIds "t1" (some "lgtm") = Except.ok st' ∧
      getRequest st' 8 = some row' ∧ row'.status = "DM_APPROVED" ∧
      row'.current_approval_level = 2 ∧ row'.dm_approved_by = some "Tracy Legrand" := by
  have h := C3_legacy_fixed_path c3State 8 exIds "t1" (some "lgtm") c3Request rfl rfl
  obtain ⟨st', row', hok, hget, hstat, hlvl, hdm, -⟩ := h.1 rfl
  exact ⟨st', row', hok, hget, hstat, hlvl, by rw [hdm]; rfl⟩

/-- C7 (amended): for an eligible (in-flight) request, withdraw resets to
DRAFT at level 0, clears the next-approver fields and all sixteen per-level
legacy approval facts, and deletes all of the request's step rows; send-back
resets to DRAFT at level 0, clears the next-approver fields and deletes the
step rows, but stores its comment into the gvp comments column and leaves the
other legacy approval facts unchanged. -/
theorem C7_amended (st : CacheState) (request_id : Int) (ids : IdentityState)
    (now : String) (comment : String) (c2 : Option String) (row : Request)
    (hrow : getRequest st request_id = some row)
    (helig : row.status ∈ activeStatuses) :
    (∃ st', withdraw_request st request_id ids now comment = Except.ok st' ∧
      getRequest st' request_id = some (withdrawUpdate ids now comment row) ∧
      st'.steps = st.steps.filter (fun s => s.request_id != request_id)) ∧
    (withdrawUpdate ids now comment row).status = "DRAFT" ∧
    (withdrawUpdate ids now comment row).current_approval_level = 0 ∧
    (withdrawUpdate ids now comment row).next_approver_id = none ∧
    (withdrawUpdate ids now comment row).next_approver_name = none ∧
    (withdrawUpdate ids now comment row).next_approver_title = none ∧
    (withdrawUpdate ids now comment row).dm_approved_by = none ∧
    (withdrawUpdate ids now comment row).dm_approved_by_title = none ∧
    (withdrawUpdate ids now comment row).dm_approved_at = none ∧
    (withdrawUpdate ids now comment row).dm_comments = none ∧
    (withdrawUpdate ids now comment row).rd_approved_by = none ∧
    (withdrawUpdate ids now comment row).rd_approved_by_title = none ∧
    (withdrawUpdate ids now comment row).rd_approved_at = none ∧
    (withdrawUpdate ids now comment row).rd_comments = none ∧
    (withdrawUpdate ids now comment row).avp_approved_by = none ∧
    (withdrawUpdate ids now comment row).avp_approved_by_title = none ∧
    (withdrawUpdate ids now comment row).avp_approved_at = none ∧
    (withdrawUpdate ids now comment row).avp_comments = none ∧
    (withdrawUpdate ids now comment row).gvp_approved_by = none ∧
    (withdrawUpdate ids now comment row).gvp_approved_by_title = none ∧
    (withdrawUpdate ids now comment row).gvp_approved_at = none ∧
    (withdrawUpdate ids now comment row).gvp_comments = none ∧
    (∃ st', send_back_for_revision st request_id c2 now = Except.ok st' ∧
      getRequest st' request_id = some (sendBackUpdate c2 now row) ∧
      st'.steps = st.steps.filter (fun s => s.request_id != request_id)) ∧
    (sendBackUpdate c2 now row).status = "DRAFT" ∧
    (sendBackUpdate c2 now row).current_approval_level = 0 ∧
    (sendBackUpdate c2 now row).next_approver_id = none ∧
    (sendBackUpdate c2 now row).next_approver_name = none ∧
    (sendBackUpdate c2 now row).next_approver_title = none ∧
    (sendBackUpdate c2 now row).gvp_comments = c2 ∧
    (sendBackUpdate c2 now row).dm_approved_by = row.dm_approved_by ∧
    (sendBackUpdate c2 now row).dm_approved_by_title = row.dm_approved_by_title ∧
    (sendBackUpdate c2 now row).dm_approved_at = row.dm_approved_at ∧
    (sendBackUpdate c2 now row).dm_comments = row.dm_comments ∧
    (sendBackUpdate c2 now row).rd_approved_by = row.rd_approved_by ∧
    (sendBackUpdate c2 now row).rd_approved_at = row.rd_approved_at ∧
    (sendBackUpdate c2 now row).avp_approved_by = row.avp_approved_by ∧
    (sendBackUpdate c2 now row).avp_approved_at = row.avp_approved_at ∧
    (sendBackUpdate c2 now row).gvp_approved_by = row.gvp_approved_by ∧
    (sendBackUpdate c2 now row).gvp_approved_at = row.gvp_approved_at := by
  have hcont : activeStatuses.contains row.status = true := by
    simp only [activeStatuses, List.mem_cons, List.not_mem_nil, or_false] at helig
    rcases helig with h | h | h | h <;> rw [h] <;> decide
  have hmapW : (getRequest st request_id).map (withdrawUpdate ids now comment)
      = some (withdrawUpdate ids now comment row) := by
    rw [hrow]; rfl
  have hmapS : (getRequest st request_id).map (sendBackUpdate c2 now)
      = some (sendBackUpdate c2 now row) := by
    rw [hrow]; rfl
  have hokW : withdraw_request st request_id ids now comment = Except.ok
      { update_cache_request st request_id (withdrawUpdate ids now comment) with
        steps := st.steps.filter (fun s => s.request_id != request_id) } := by
    unfold withdraw_request
    rw [hrow]
    dsimp only
    rw [hcont]
    rfl
  have hokS : send_back_for_revision st request_id c2 now = Except.ok
      { update_cache_request st request_id (sendBackUpdate c2 now) with
        steps := st.steps.filter (fun s => s.request_id != request_id) } := by
    unfold send_back_for_revision
    rw [hrow]
    dsimp only
    rw [hcont]
    rfl
  refine ⟨⟨_, hokW, ?_, rfl⟩,
    rfl, rfl, rfl, rfl, rfl, rfl, rfl, rfl, rfl, rfl, rfl, rfl, rfl, rfl, rfl,
    rfl, rfl, rfl, rfl, rfl, rfl,
    ⟨_, hokS, ?_, rfl⟩,
    rfl, rfl, rfl, rfl, rfl, rfl, rfl, rfl, rfl, rfl, rfl, rfl, rfl, rfl, rfl, rfl⟩
  · exact (getRequest_update_cache st request_id
      (withdrawUpdate ids now comment) (fun r => rfl)).trans hmapW
  · exact (getRequest_update_cache st request_id
      (sendBackUpdate c2 now) (fun r => rfl)).trans hmapS

/-- C7 witness: withdrawing and sending back the DM_APPROVED request 10. -/
theorem C7_amended_witness :
    ∃ st', withdraw_request c7State 10 exIds "t1" "c" = Except.ok st' ∧
      getRequest st' 10 = some (withdrawUpdate exIds "t1" "c" c7Request) ∧
      st'.steps = c7State.steps.filter (fun s => s.request_id != 10) := by
  have h := C7_amended c7State 10 exIds "t1" "c" (some "fix") c7Request rfl (by decide)
  exact h.1

/-- C9 (amended): the administrator check compares the real (cached
authenticated) username to the administrator constant and is therefore
independent of any impersonation override; but the withdrawn-by audit field
records the EFFECTIVE username, i.e. the impersonated identity when an
override is active. -/
theorem C9_amended :
    (∀ imp imp' cached : Option UserInfo,
      is_admin ⟨imp, cached⟩ = is_admin ⟨imp', cached⟩) ∧
    (∀ (st : CacheState) (request_id : Int) (ids : IdentityState)
      (now comment : String) (st' : CacheState),
      withdraw_request st request_id ids now comment = Except.ok st' →
      ∃ row, getRequest st request_id = some row ∧
        getRequest st' request_id = some (withdrawUpdate ids now comment row) ∧
        (withdrawUpdate ids now comment row).withdrawn_by
          = some (effectiveUsername ids)) := by
  refine ⟨fun imp imp' cached => rfl, ?_⟩
  intro st request_id ids now comment st' hok
  unfold withdraw_request at hok
  cases hrow : getRequest st request_id with
  | none => rw [hrow] at hok; cases hok
  | some row =>
    rw [hrow] at hok
    dsimp only at hok
    by_cases hcond : ((!(activeStatuses.contains row.status)
        && row.status != "SUBMITTED")
        && (!(has_approval_steps st request_id)
            && !(activeStatuses.contains row.status))) = true
    · rw [if_pos hcond] at hok; cases hok
    · rw [if_neg hcond] at hok
      injection hok with h
      subst h
      refine ⟨row, rfl, ?_, rfl⟩
      exact (getRequest_update_cache st request_id
        (withdrawUpdate ids now comment) (fun r => rfl)).trans (by rw [hrow]; rfl)

/-- C9 witness: on the concrete impersonated withdraw, the admin check is
unchanged by impersonation and the recorded withdrawn-by is the effective
(impersonated) username. -/
theorem C9_amended_witness :
    (is_admin ⟨some exImpersonated, some exCachedUser⟩
      = is_admin ⟨none, some exCachedUser⟩) ∧
    ∃ row, getRequest c9State 12 = some row ∧
      getRequest c9AfterState 12 = some (withdrawUpdate exIdsImp "t1" "oops" row) ∧
      (withdrawUpdate exIdsImp "t1" "oops" row).withdrawn_by
        = some (effectiveUsername exIdsImp) := by
  constructor
  · exact C9_amended.1 (some exImpersonated) none (some exCachedUser)
  · exact C9_amended.2 c9State 12 exIdsImp "t1" "oops" c9AfterState rfl

/-- C10: updateRequest and deleteRequest mutate only DRAFT requests: an
absent id yields a 404 client error, a non-DRAFT status yields a 400 client
error (no cache mutation, no background sync scheduled), and a DRAFT request
yields success with a background sync scheduled. -/
theorem C10_draft_only_guard (st : CacheState) (request_id : Int)
    (d : UpdatePayload) (finalApprovers : String → Option Int)
    (dir : Int → Option Employee) (ids : IdentityState) (now : String) :
    (getRequest st request_id = none →
      update_request st request_id d finalApprovers dir ids now
          = Except.error ⟨404, "Request not found"⟩ ∧
      delete_request st request_id = Except.error ⟨404, "Request not found"⟩) ∧
    (∀ row, getRequest st request_id = some row → row.status ≠ "DRAFT" →
      update_request st request_id d finalApprovers dir ids now
          = Except.error ⟨400, "Cannot edit request that is not in DRAFT status"⟩ ∧
      delete_request st request_id
          = Except.error ⟨400, "Cannot delete request that is not in DRAFT status"⟩) ∧
    (∀ row, getRequest st request_id = some row → row.status = "DRAFT" →
      (∃ p, update_request st request_id d finalApprovers dir ids now
          = Except.ok p ∧ p.2 = true) ∧
      (∃ p, delete_request st request_id = Except.ok p ∧ p.2 = true)) := by
  refine ⟨?_, ?_, ?_⟩
  · intro h
    unfold update_request delete_request
    rw [h]
    exact ⟨rfl, rfl⟩
  · intro row hrow hst
    have hb : (row.status != "DRAFT") = true := by
      simp [bne_iff_ne, hst]
    unfold update_request delete_request
    rw [hrow]
    dsimp only
    rw [hb]
    exact ⟨rfl, rfl⟩
  · intro row hrow hst
    have hb : (row.status != "DRAFT") = false := by
      simp [hst]
    unfold update_request delete_request
    rw [hrow]
    dsimp only
    rw [hb]
    constructor
    · by_cases ha : d.auto_submit = true
      · rw [if_neg (by simp)]
        rw [ha]
        exact ⟨_, rfl, rfl⟩
      · rw [if_neg (by simp)]
        rw [Bool.not_eq_true] at ha
        rw [ha]
        exact ⟨_, rfl, rfl⟩
    · rw [if_neg (by simp)]
      exact ⟨_, rfl, rfl⟩

/-- C10 witness: the guards on the concrete non-DRAFT request 12, the DRAFT
request 11 and an absent id. -/
theorem C10_draft_only_guard_witness :
    (update_request c9State 99 emptyPayload exFA exDir exIds "t1"
        = Except.error ⟨404, "Request not found"⟩) ∧
    (update_request c9State 12 emptyPayload exFA exDir exIds "t1"
        = Except.error ⟨400, "Cannot edit request that is not in DRAFT status"⟩) ∧
    (delete_request c9State 12
        = Except.error ⟨400, "Cannot delete request that is not in DRAFT status"⟩) ∧
    (∃ p, delete_request c1State 11 = Except.ok p ∧ p.2 = true) := by
  refine ⟨?_, ?_, ?_, ?_⟩
  · exact ((C10_draft_only_guard c9State 99 emptyPayload exFA exDir exIds "t1").1
      (by decide)).1
  · exact ((C10_draft_only_guard c9State 12 emptyPayload exFA exDir exIds "t1").2.1
      c9Request (by decide) (by decide)).1
  · exact ((C10_draft_only_guard c9State 12 emptyPayload exFA exDir exIds "t1").2.1
      c9Request (by decide) (by decide)).2
  · exact ((C10_draft_only_guard c1State 11 emptyPayload exFA exDir exIds "t1").2.2
      c1Request (by decide) (by decide)).2

theorem applyLegacyUpdates_status (slot : Option LegacySlot) (n t : Option String)
    (now : String) (c : Option String) (r : Request) :
    (applyLegacyUpdates slot n t now c r).status = r.status := by
  cases slot with
  | none => rfl
  | some s => cases s <;> rfl

theorem applyLegacyUpdates_level (slot : Option LegacySlot) (n t : Option String)
    (now : String) (c : Option String) (r : Request) :
    (applyLegacyUpdates slot n t now c r).current_approval_level
      = r.current_approval_level := by
  cases slot with
  | none => rfl
  | some s => cases s <;> rfl

theorem applyLegacyUpdates_next_name (slot : Option LegacySlot) (n t : Option String)
    (now : String) (c : Option String) (r : Request) :
    (applyLegacyUpdates slot n t now c r).next_approver_name
      = r.next_approver_name := by
  cases slot with
  | none => rfl
  | some s => cases s <;> rfl

theorem applyLegacyUpdates_next_title (slot : Option LegacySlot) (n t : Option String)
    (now : String) (c : Option String) (r : Request) :
    (applyLegacyUpdates slot n t now c r).next_approver_title
      = r.next_approver_title := by
  cases slot with
  | none => rfl
  | some s => cases s <;> rfl

theorem applyLegacyUpdates_next_id (slot : Option LegacySlot) (n t : Option String)
    (now : String) (c : Option String) (r : Request) :
    (applyLegacyUpdates slot n t now c r).next_approver_id
      = r.next_approver_id := by
  cases slot with
  | none => rfl
  | some s => cases s <;> rfl

theorem dynamicApproveUpdate_request_id (ids : IdentityState) (now : String)
    (comments : Option String) (cur : ApprovalStep) (nxt : Option ApprovalStep)
    (r : Request) :
    (dynamicApproveUpdate ids now comments cur nxt r).request_id = r.request_id := by
  unfold dynamicApproveUpdate
  rw [applyLegacyUpdates_request_id]

/-- C2: on a request with step rows and a PENDING step, `approve_request`
approves the lowest-ordinal PENDING step (recording timestamp and comment on
the step row); if that step carries the final-step flag the request becomes
FINAL_APPROVED, otherwise the status remains SUBMITTED, the level advances by
one and the next-approver pointer is copied from the step with the next
ordinal; ordinals 1-4 additionally mirror the approval facts into the
dm/rd/avp/gvp legacy slots. -/
theorem C2_dynamic_approve (st : CacheState) (request_id : Int) (ids : IdentityState)
    (now : String) (comments : Option String) (row : Request) (cur : ApprovalStep)
    (hrow : getRequest st request_id = some row)
    (hhas : has_approval_steps st request_id = true)
    (hcur : (get_cached_approval_steps st request_id).find?
        (fun s => s.status == "PENDING") = some cur)
    (hlvl : row.current_approval_level = (cur.step_order : Int)) :
    ∃ st' row', approve_request st request_id ids now comments = Except.ok st' ∧
      (∀ y ∈ st.steps, y.request_id = request_id → y.status = "PENDING" →
        cur.step_order ≤ y.step_order) ∧
      st'.steps = st.steps.map (fun s =>
        if s.request_id == request_id && s.step_order == cur.step_order then
          { s with status := "APPROVED", approved_at := some now, comments := comments }
        else s) ∧
      getRequest st' request_id = some row' ∧
      (cur.is_final_step = true → row'.status = "FINAL_APPROVED") ∧
      (cur.is_final_step = false →
        row'.status = "SUBMITTED" ∧
        row'.current_approval_level = row.current_approval_level + 1 ∧
        row'.next_approver_name = ((get_cached_approval_steps st request_id).find?
            (fun s => s.step_order == cur.step_order + 1)).bind
              (fun s => s.approver_name) ∧
        row'.next_approver_title = ((get_cached_approval_steps st request_id).find?
            (fun s => s.step_order == cur.step_order + 1)).bind
              (fun s => s.approver_title) ∧
        row'.next_approver_id = ((get_cached_approval_steps st request_id).find?
            (fun s => s.step_order == cur.step_order + 1)).bind
              (fun s => s.approver_employee_id)) ∧
      (cur.step_order = 1 →
        row'.dm_approved_by = approverDisplayName ids ∧
        row'.dm_approved_by_title = approverTitle ids ∧
        row'.dm_approved_at = some now ∧ row'.dm_comments = comments) ∧
      (cur.step_order = 2 →
        row'.rd_approved_by = approverDisplayName ids ∧
        row'.rd_approved_by_title = approverTitle ids ∧
        row'.rd_approved_at = some now ∧ row'.rd_comments = comments) ∧
      (cur.step_order = 3 →
        row'.avp_approved_by = approverDisplayName ids ∧
        row'.avp_approved_by_title = approverTitle ids ∧
        row'.avp_approved_at = some now ∧ row'.avp_comments = comments) ∧
      (cur.step_order = 4 →
        row'.gvp_approved_by = approverDisplayName ids ∧
        row'.gvp_approved_by_title = approverTitle ids ∧
        row'.gvp_approved_at = some now ∧ row'.gvp_comments = comments) := by
  set st1 : CacheState := { st with steps := st.steps.map (fun s =>
      if s.request_id == request_id && s.step_order == cur.step_order then
        { s with status := "APPROVED", approved_at := some now, comments := comments }
      else s) } with hst1
  have hok : approve_request st request_id ids now comments = Except.ok
      (update_cache_request st1 request_id
        (dynamicApproveUpdate ids now comments cur
          ((get_cached_approval_steps st request_id).find?
            (fun s => s.step_order == cur.step_order + 1)))) := by
    unfold approve_request
    rw [hrow]
    dsimp only
    rw [hhas, hcur]
    rfl
  refine ⟨_, dynamicApproveUpdate ids now comments cur
      ((get_cached_approval_steps st request_id).find?
        (fun s => s.step_order == cur.step_order + 1)) row,
    hok, ?_, rfl, ?_, ?_, ?_, ?_, ?_, ?_, ?_⟩
  · intro y hy hyid hyp
    refine find?_min_step_order (pairwise_sortByStepOrder _) hcur y ?_ ?_
    · exact mem_sortByStepOrder.mpr (List.mem_filter.mpr ⟨hy, by simp [hyid]⟩)
    · simp [hyp]
  · have h1 := getRequest_update_cache st1 request_id
      (dynamicApproveUpdate ids now comments cur
        ((get_cached_approval_steps st request_id).find?
          (fun s => s.step_order == cur.step_order + 1)))
      (dynamicApproveUpdate_request_id ids now comments cur _)
    refine h1.trans ?_
    have h2 : getRequest st1 request_id = getRequest st request_id := rfl
    rw [h2, hrow]
    rfl
  · intro h
    unfold dynamicApproveUpdate
    rw [applyLegacyUpdates_status, h]
    rfl
  · intro h
    unfold dynamicApproveUpdate
    rw [applyLegacyUpdates_status, applyLegacyUpdates_level,
      applyLegacyUpdates_next_name, applyLegacyUpdates_next_title,
      applyLegacyUpdates_next_id, h]
    refine ⟨rfl, ?_, rfl, rfl, rfl⟩
    show (cur.step_order : Int) + 1 = row.current_approval_level + 1
    rw [hlvl]
  · intro h
    unfold dynamicApproveUpdate
    rw [h]
    exact ⟨rfl, rfl, rfl, rfl⟩
  · intro h
    unfold dynamicApproveUpdate
    rw [h]
    exact ⟨rfl, rfl, rfl, rfl⟩
  · intro h
    unfold dynamicApproveUpdate
    rw [h]
    exact ⟨rfl, rfl, rfl, rfl⟩
  · intro h
    unfold dynamicApproveUpdate
    rw [h]
    exact ⟨rfl, rfl, rfl, rfl⟩

/-- C2 witness: approving the first step of the two-step chain of request 9
keeps SUBMITTED, advances the level to 2, points at the step-2 approver and
mirrors the DM slot. -/
theorem C2_dynamic_approve_witness :
    ∃ st' row', approve_request c2State 9 exIds "t1" (some "ok") = Except.ok st' ∧
      getRequest st' 9 = some row' ∧ row'.status = "SUBMITTED" ∧
      row'.current_approval_level = 2 ∧ row'.next_approver_name = some "E Three" ∧
      row'.dm_approved_by = some "Tracy Legrand" := by
  obtain ⟨st', row', hok, hmin, hsteps, hget, hfin, hnonfin, h1, h2, h3, h4⟩ :=
    C2_dynamic_approve c2State 9 exIds "t1" (some "ok") c2Request c2Step1
      (by decide) (by decide) (by decide) (by decide)
  obtain ⟨hs, hl, hn, -, -⟩ := hnonfin (by decide)
  obtain ⟨hdm, -, -, -⟩ := h1 (by decide)
  refine ⟨st', row', hok, hget, hs, ?_, ?_, ?_⟩
  · rw [hl]; decide
  · rw [hn]; decide
  · rw [hdm]; rfl

theorem walkUp_level_lt (dir : Int → Option Employee) :
    ∀ (fuel : Nat) (mid : Option Int) (level : Nat),
      ∀ x ∈ walkUp dir fuel mid level, x.1 < level + fuel := by
  intro fuel
  induction fuel with
  | zero =>
    intro mid level x hx
    cases mid <;> simp [walkUp] at hx
  | succ n ih =>
    intro mid level x hx
    cases mid with
    | none => simp [walkUp] at hx
    | some m =>
      rw [walkUp] at hx
      cases hd : dir m with
      | none => rw [hd] at hx; simp at hx
      | some e =>
        rw [hd] at hx
        dsimp only at hx
        by_cases hact : e.active = true
        · rw [if_pos hact] at hx
          rcases List.mem_cons.mp hx with rfl | hx
          · show level < level + (n + 1)
            omega
          · have h := ih e.manager_id (level + 1) x hx
            omega
        · rw [if_neg hact] at hx
          simp at hx

theorem chainRows_level_lt (dir : Int → Option Employee) (employee_id : Int) :
    ∀ x ∈ chainRows dir employee_id, x.1 < 11 := by
  intro x hx
  unfold chainRows at hx
  cases hd : dir employee_id with
  | none => rw [hd] at hx; simp at hx
  | some e =>
    rw [hd] at hx
    dsimp only at hx
    by_cases ha : e.active = true
    · rw [if_pos ha] at hx
      have h := walkUp_level_lt dir 9 e.manager_id 2 x hx
      omega
    · rw [if_neg ha] at hx
      simp at hx

theorem mem_takeThrough {p : α → Bool} :
    ∀ {l : List α} {x : α}, x ∈ takeThrough p l → x ∈ l := by
  intro l
  induction l with
  | nil =>
    intro x hx
    simp [takeThrough] at hx
  | cons a t ih =>
    intro x hx
    rw [takeThrough] at hx
    by_cases hp : p a = true
    · rw [if_pos hp] at hx
      rcases List.mem_singleton.mp hx with rfl
      exact List.mem_cons_self _ _
    · rw [if_neg hp] at hx
      rcases List.mem_cons.mp hx with rfl | hx
      · exact List.mem_cons_self _ _
      · exact List.mem_cons_of_mem _ (ih hx)

theorem finishChain_spec (dir : Int → Option Employee) (fa : Int) (f : Employee)
    (raw_chain : List ChainEntry)
    (hdir : dir fa = some f) (hact : f.active = true)
    (hflag : ∀ e ∈ raw_chain, e.is_final = (e.employee_id == fa))
    (hlev : ∀ e ∈ raw_chain, e.level < 11) :
    finishChain dir fa raw_chain ≠ [] ∧
    (finishChain dir fa raw_chain).getLast?.map (fun e => e.is_final) = some true ∧
    (finishChain dir fa raw_chain).getLast?.map (fun e => e.employee_id) = some fa ∧
    ∀ e ∈ finishChain dir fa raw_chain, e.level ≤ 11 := by
  cases hlast : raw_chain.getLast? with
  | none =>
    have hnil : raw_chain = [] := List.getLast?_eq_none_iff.mp hlast
    subst hnil
    have hres : finishChain dir fa ([] : List ChainEntry)
        = [{ employee_id := fa, name := f.name, title := f.title,
             level := 2, is_final := true }] := by
      unfold finishChain
      rw [hdir]
      dsimp only
      rw [hact]
      rfl
    rw [hres]
    refine ⟨by simp, rfl, rfl, ?_⟩
    intro e he
    rcases List.mem_singleton.mp he with rfl
    show (2 : Nat) ≤ 11
    omega
  | some e =>
    have hmem : e ∈ raw_chain := List.mem_of_getLast?_eq_some hlast
    by_cases he : e.employee_id = fa
    · have hne : (e.employee_id != fa) = false := by simp [he]
      have hres : finishChain dir fa raw_chain = raw_chain := by
        unfold finishChain
        rw [hlast]
        dsimp only
        rw [hne]
        rfl
      rw [hres]
      refine ⟨?_, ?_, ?_, ?_⟩
      · intro h
        rw [h] at hlast
        cases hlast
      · rw [hlast]
        show some e.is_final = some true
        rw [hflag e hmem]
        simp [he]
      · rw [hlast]
        show some e.employee_id = some fa
        rw [he]
      · intro x hx
        have h := hlev x hx
        omega
    · have hne : (e.employee_id != fa) = true := by simp [he]
      have hres : finishChain dir fa raw_chain
          = raw_chain ++ [{ employee_id := fa, name := f.name, title := f.title,
                            level := e.level + 1, is_final := true }] := by
        unfold finishChain
        rw [hlast]
        dsimp only
        rw [hne, hdir]
        dsimp only
        rw [hact]
        rfl
      rw [hres]
      refine ⟨by simp, ?_, ?_, ?_⟩
      · rw [List.getLast?_concat]
        rfl
      · rw [List.getLast?_concat]
        rfl
      · intro x hx
        rcases List.mem_append.mp hx with hx | hx
        · have h := hlev x hx
          omega
        · rcases List.mem_singleton.mp hx with rfl
          have h := hlev e hmem
          show e.level + 1 ≤ 11
          omega

/-- C8 (amended): for every employee id and every theater whose configured
final approver HAS an active directory record, the resolver returns a
non-empty chain whose last entry is the final approver with isFinal true; the
walk is bounded (every entry's level is at most 11, the walk itself producing
levels at most 10 and the explicit append one past the walk's last level).
Without an active directory record for the approver the chain can be empty
(see the counterexample). -/
theorem C8_amended (finalApprovers : String → Option Int)
    (dir : Int → Option Employee) (employee_id fa : Int) (theater : String)
    (f : Employee) (hfa : finalApprovers theater = some fa)
    (hdir : dir fa = some f) (hact : f.active = true) :
    resolve_approval_chain finalApprovers dir employee_id theater ≠ [] ∧
    (resolve_approval_chain finalApprovers dir employee_id theater).getLast?.map
        (fun e => e.is_final) = some true ∧
    (resolve_approval_chain finalApprovers dir employee_id theater).getLast?.map
        (fun e => e.employee_id) = some fa ∧
    ∀ e ∈ resolve_approval_chain finalApprovers dir employee_id theater,
      e.level ≤ 11 := by
  have hres : resolve_approval_chain finalApprovers dir employee_id theater
      = finishChain dir fa ((takeThrough (fun r => r.2.1 == fa)
          (chainRows dir employee_id)).map (rowEntry fa)) := by
    unfold resolve_approval_chain
    rw [hfa]
  have hflag : ∀ e ∈ (takeThrough (fun r => r.2.1 == fa)
      (chainRows dir employee_id)).map (rowEntry fa),
      e.is_final = (e.employee_id == fa) := by
    intro e he
    rcases List.mem_map.mp he with ⟨r, hr, rfl⟩
    rfl
  have hlev : ∀ e ∈ (takeThrough (fun r => r.2.1 == fa)
      (chainRows dir employee_id)).map (rowEntry fa), e.level < 11 := by
    intro e he
    rcases List.mem_map.mp he with ⟨r, hr, rfl⟩
    exact chainRows_level_lt dir employee_id r (mem_takeThrough hr)
  rw [hres]
  exact finishChain_spec dir fa f _ hdir hact hflag hlev

/-- C8 witness: employee 1 in theater EMEA with final approver 3 gets the
two-entry chain ending at the final approver. -/
theorem C8_amended_witness :
    resolve_approval_chain exFA exDir 1 "EMEA" ≠ [] ∧
    (resolve_approval_chain exFA exDir 1 "EMEA").getLast?.map
        (fun e => e.is_final) = some true ∧
    (resolve_approval_chain exFA exDir 1 "EMEA").getLast?.map
        (fun e => e.employee_id) = some 3 := by
  have h := C8_amended exFA exDir 1 3 "EMEA" ⟨"E Three", some "GVP", none, true⟩
    rfl rfl rfl
  exact ⟨h.1, h.2.1, h.2.2.1⟩

/-- C5 witness: a source with a remote timestamp and a cold cache reports
stale. -/
theorem C5_amended_witness :
    needs_refresh ["INVESTMENT_REQUESTS"]
      (some [("INVESTMENT_REQUESTS", some "2025-02-01")]) [] = true := by
  rw [C5_amended]
  exact ⟨"INVESTMENT_REQUESTS", by simp, "2025-02-01", rfl, Or.inl rfl⟩
